import Mathlib

/-!
Verification of the Jira ↔ M365 user-directory reconciliation pipeline
(`compare_users.py` and `update_jira_profiles.py` under
`src/utils/jira/jira-azure-user-sync/`).

The Python code is shallowly embedded: raw user records become a structure
of optional string fields (a Python dict field access `d.get(k)` becomes a
field of type `Option String`, absence being `none`), Python dicts used as
insertion-ordered maps become association lists with Python's
overwrite-in-place insertion, and the two HTTP PATCH operations of the
update executor become a trace of `NetOp` values whose success is decided
by an oracle `ok : NetOp → Bool` (the network response).  Python string
truthiness (`if not s`) is `truthy`, `s or 'None'` is `pyOr`, and the
substring test `'x' in s` is `strContains`.
-/

set_option autoImplicit false

namespace JiraSync

/-- Python truthiness of an optional string: `None` and `""` are falsy. -/
def truthy : Option String → Bool
  | none => false
  | some s => !s.isEmpty

/-- Drop leading whitespace characters from a character list. -/
def dropLeadingWs : List Char → List Char
  | [] => []
  | c :: rest => if c.isWhitespace then dropLeadingWs rest else c :: rest

/-- Trim whitespace from both ends of a character list. -/
def trimChars (l : List Char) : List Char :=
  (dropLeadingWs (dropLeadingWs l).reverse).reverse

/-- Python `str.strip()` (kernel-reducible model of `String.trim`). -/
def stripStr (s : String) : String := ⟨trimChars s.data⟩

/-- Python `str.lower()` (ASCII lowering, as in `Char.toLower`). -/
def lowerStr (s : String) : String := ⟨s.data.map Char.toLower⟩

/-- `(value or '').strip()` applied to an optional string. -/
def pyStrip (v : Option String) : String := stripStr (v.getD "")

/-- Python `value or default` for an optional string operand. -/
def pyOr (v : Option String) (dflt : String) : String :=
  match v with
  | none => dflt
  | some s => if s = "" then dflt else s

/-- `leadsWith needle l` is true when `needle` is an initial segment of `l`. -/
def leadsWith : List Char → List Char → Bool
  | [], _ => true
  | _ :: _, [] => false
  | a :: as, b :: bs => a == b && leadsWith as bs

/-- `charsContain needle l`: `needle` occurs contiguously somewhere in `l`. -/
def charsContain (needle : List Char) : List Char → Bool
  | [] => needle.isEmpty
  | c :: rest => leadsWith needle (c :: rest) || charsContain needle rest

/-- Python substring test `needle in hay`. -/
def strContains (hay needle : String) : Bool :=
  charsContain needle.data hay.data

/-- `normalize_email` from `compare_users.py`: lowercase + trim, with
`None`, `''` and `'N/A'` all collapsing to the empty identity key. -/
def normalize_email (email : Option String) : String :=
  match email with
  | none => ""
  | some e => if e = "" ∨ e = "N/A" then "" else stripStr (lowerStr e)

/-- A Python `dict` used as an insertion-ordered map with `String` keys. -/
abbrev PyDict (β : Type) := List (String × β)

/-- Python dict assignment `m[k] = v`: overwrite in place if the key is
present (keeping its original position), otherwise append. -/
def dinsert {β : Type} (m : PyDict β) (k : String) (v : β) : PyDict β :=
  if m.any (fun p => p.1 == k) then
    m.map (fun p => if p.1 = k then (k, v) else p)
  else
    m ++ [(k, v)]

/-- Python dict lookup `m.get(k)`. -/
def dlookup {β : Type} (m : PyDict β) (k : String) : Option β :=
  (m.find? (fun p => p.1 == k)).map (fun p => p.2)

/-- Python membership test `k in m`. -/
def dmem {β : Type} (m : PyDict β) (k : String) : Bool :=
  m.any (fun p => p.1 == k)

/-- The keys of a dict. -/
def dkeys {β : Type} (m : PyDict β) : List String := m.map (fun p => p.1)

/-- One raw user record, from either source system, as loaded from JSON.
Every field access in the scripts goes through `.get(...)`, so each field
is optional; a record that lacks a key is the record with `none` there. -/
structure RawUser where
  email : Option String
  display_name : Option String
  account_type : Option String
  account_id : Option String
  job_title : Option String
  department : Option String
  office_location : Option String
  location : Option String
deriving DecidableEq, Repr

/-- The body of the `create_email_mapping` loop: insert the user under its
normalized email unless that key is empty. -/
def add_user (email_field : RawUser → Option String)
    (mapping : PyDict RawUser) (user : RawUser) : PyDict RawUser :=
  if normalize_email (email_field user) = "" then mapping
  else dinsert mapping (normalize_email (email_field user)) user

/-- `create_email_mapping` from `compare_users.py`: fold the user list into
an email → user dict, skipping users whose normalized email is empty.  The
`email_field` name argument becomes a field selector. -/
def create_email_mapping (users : List RawUser)
    (email_field : RawUser → Option String) : PyDict RawUser :=
  users.foldl (add_user email_field) []

/-- `compare_field` from `compare_users.py`, returning the
`(is_different, status_message)` pair.  The f-string messages are built by
concatenation; `\x27` is the ASCII apostrophe. -/
def compare_field (jira_value m365_value : Option String) : Bool × String :=
  if pyStrip jira_value = "" ∧ pyStrip m365_value = "" then
    (false, "✓ Both empty")
  else if pyStrip jira_value = "" then
    (true, "⚠️  Missing in Jira (M365: \x27" ++ pyStrip m365_value ++ "\x27)")
  else if pyStrip m365_value = "" then
    (true, "⚠️  Missing in M365 (Jira: \x27" ++ pyStrip jira_value ++ "\x27)")
  else if lowerStr (pyStrip jira_value) = lowerStr (pyStrip m365_value) then
    (false, "✓ \x27" ++ pyStrip m365_value ++ "\x27")
  else
    (true, "❌ Mismatch: Jira=\x27" ++ pyStrip jira_value ++ "\x27 ≠ M365=\x27"
      ++ pyStrip m365_value ++ "\x27")

/-- The spec's verdict classification vocabulary (§3 of the spec). -/
inductive Classification where
  | BothEmpty
  | MatchedEquivalent
  | CaseInsensitiveMatch
  | MissingInPrimary
  | MissingInSecondary
  | Mismatch
  | InfoOnly
deriving DecidableEq, Repr

/-- The classification of a `compare_field` outcome: the same branch
structure as `compare_field`, with each branch labelled by the spec's name
for it.  Only used to state claims phrased in the spec's vocabulary. -/
def compare_field_class (jira_value m365_value : Option String) :
    Classification :=
  if pyStrip jira_value = "" ∧ pyStrip m365_value = "" then
    Classification.BothEmpty
  else if pyStrip jira_value = "" then
    Classification.MissingInPrimary
  else if pyStrip m365_value = "" then
    Classification.MissingInSecondary
  else if lowerStr (pyStrip jira_value) = lowerStr (pyStrip m365_value) then
    Classification.MatchedEquivalent
  else
    Classification.Mismatch

/-- The per-user verdict dictionary built inside `compare_users` (keys
`display_name`, `job_title`, `department`, `location`); each verdict is the
`(differs, message)` pair of `compare_field`. -/
structure DiffsDict where
  display_name : Bool × String
  job_title : Bool × String
  department : Bool × String
  location : Bool × String
deriving DecidableEq, Repr

/-- The verdict dictionary and the `has_differences` flag computed for one
matched pair inside the `compare_users` loop.  In full-profile mode all
four attributes run through `compare_field` and `has_differences` is the
`any` of their flags; in basic mode only the display name is diffed and the
three profile attributes become informational `(False, "ℹ️  M365: '...'")`
entries showing the M365 value (`value or 'None'`). -/
def build_differences (has_profiles : Bool) (jira_user m365_user : RawUser) :
    DiffsDict × Bool :=
  let diff_display_name := compare_field jira_user.display_name m365_user.display_name
  if has_profiles then
    let diff_job_title := compare_field jira_user.job_title m365_user.job_title
    let diff_department := compare_field jira_user.department m365_user.department
    let diff_location := compare_field jira_user.location m365_user.office_location
    (⟨diff_display_name, diff_job_title, diff_department, diff_location⟩,
     diff_display_name.1 || diff_job_title.1 || diff_department.1 || diff_location.1)
  else
    (⟨diff_display_name,
      (false, "ℹ️  M365: \x27" ++ pyOr m365_user.job_title "None" ++ "\x27"),
      (false, "ℹ️  M365: \x27" ++ pyOr m365_user.department "None" ++ "\x27"),
      (false, "ℹ️  M365: \x27" ++ pyOr m365_user.office_location "None" ++ "\x27")⟩,
     diff_display_name.1)

/-- One entry of the `matched` / `differences` result lists of
`compare_users`. -/
structure UserComparison where
  email : String
  jira : RawUser
  m365 : RawUser
  differences : DiffsDict
  has_differences : Bool
deriving DecidableEq, Repr

/-- Builds the `user_comparison` dict appended inside the `compare_users`
loop. -/
def mk_user_comparison (has_profiles : Bool) (email : String)
    (jira_user m365_user : RawUser) : UserComparison :=
  let d := build_differences has_profiles jira_user m365_user
  ⟨email, jira_user, m365_user, d.1, d.2⟩

/-- The main loop of `compare_users` over the filtered Jira dict: each entry
found in the M365 dict is appended to `matched` (and to `differences` when
it has differences), every other entry's record goes to `only_jira`.
Returns `(matched, only_jira, differences)` in input iteration order. -/
def match_loop (m365_map : PyDict RawUser) (has_profiles : Bool) :
    PyDict RawUser → List UserComparison × List RawUser × List UserComparison
  | [] => ([], [], [])
  | p :: rest =>
    match dlookup m365_map p.1 with
    | some m365_user =>
      let comp := mk_user_comparison has_profiles p.1 p.2 m365_user
      let r := match_loop m365_map has_profiles rest
      (comp :: r.1, r.2.1, if comp.has_differences then comp :: r.2.2 else r.2.2)
    | none =>
      let r := match_loop m365_map has_profiles rest
      (r.1, p.2 :: r.2.1, r.2.2)

/-- The `stats` block of the comparison results. -/
structure CompareStats where
  total_jira : Nat
  total_m365 : Nat
  matched : Nat
  with_differences : Nat
  only_jira : Nat
  only_m365 : Nat
deriving DecidableEq, Repr

/-- The `results` dict returned by `compare_users`. -/
structure CompareResults where
  matched : List UserComparison
  only_jira : List RawUser
  only_m365 : List RawUser
  differences : List UserComparison
  stats : CompareStats
  has_profiles : Bool
deriving DecidableEq, Repr

/-- `compare_users` from `compare_users.py`: build the two email dicts,
restrict the Jira side to `account_type == 'atlassian'`, partition into
matched / only-Jira / only-M365, and derive the statistics. -/
def compare_users (jira_users m365_users : List RawUser)
    (has_profiles : Bool) : CompareResults :=
  let jira_map := create_email_mapping jira_users (fun u => u.email)
  let m365_map := create_email_mapping m365_users (fun u => u.email)
  let jira_real_users := jira_map.filter (fun p => p.2.account_type == some "atlassian")
  let r := match_loop m365_map has_profiles jira_real_users
  let matched := r.1
  let only_jira := r.2.1
  let differences := r.2.2
  let only_m365 :=
    (m365_map.filter (fun p => !(dmem jira_real_users p.1))).map (fun p => p.2)
  { matched := matched
    only_jira := only_jira
    only_m365 := only_m365
    differences := differences
    stats :=
      { total_jira := jira_real_users.length
        total_m365 := m365_map.length
        matched := matched.length
        with_differences := differences.length
        only_jira := only_jira.length
        only_m365 := only_m365.length }
    has_profiles := has_profiles }

/-! ### The persisted report and the update planner (`update_jira_profiles.py`) -/

/-- One serialized field verdict of the sync report
(`{'differs': ..., 'message': ...}`). -/
structure FieldDiff where
  differs : Bool
  message : String
deriving DecidableEq, Repr

/-- The `differences` sub-dict of one report entry; a missing key is
`none` (the planner reads the keys with `.get(key, {})`). -/
structure EntryDiffs where
  display_name : Option FieldDiff
  job_title : Option FieldDiff
  department : Option FieldDiff
  location : Option FieldDiff
deriving DecidableEq, Repr

/-- `differences.get(key, {}).get('differs')` truthiness. -/
def getDiffers (o : Option FieldDiff) : Bool :=
  (o.map (fun d => d.differs)).getD false

/-- `differences.get(key, {}).get('message', '')`. -/
def getMessage (o : Option FieldDiff) : String :=
  (o.map (fun d => d.message)).getD ""

/-- One entry of the report's `users_with_differences` list; `jira_data`
and `m365_data` are the raw records embedded in the report (an absent dict
behaves as the all-`none` record, matching `.get('jira_data', {})`). -/
structure DiffEntry where
  email : Option String
  jira_name : Option String
  m365_name : Option String
  differences : EntryDiffs
  jira_data : RawUser
  m365_data : RawUser
deriving DecidableEq, Repr

/-- The sync report consumed by the planner (`sync_report.json`); only the
fields the scripts read are modelled, each optional since read by `.get`. -/
structure Report where
  generated_at : Option String
  comparison_mode : Option String
  users_with_differences : Option (List DiffEntry)
deriving DecidableEq, Repr

/-- Outcome of opening and JSON-parsing the report file, the two failure
branches being `FileNotFoundError` and `json.JSONDecodeError`. -/
inductive LoadInput where
  | fileNotFound
  | invalidJson
  | parsed (report : Report)
deriving DecidableEq, Repr

/-- `load_sync_report` from `update_jira_profiles.py`: a successful parse
returns the report; either exception branch prints a diagnostic and calls
`sys.exit(1)`, modelled as `Except.error` carrying the process exit code. -/
def load_sync_report : LoadInput → Except Nat Report
  | LoadInput.fileNotFound => Except.error 1
  | LoadInput.invalidJson => Except.error 1
  | LoadInput.parsed report => Except.ok report

/-- The `profile_updates` dict of a planned update (keys only present when
set), and also the shape of the `jira_current` / `m365_source` blocks. -/
structure ProfileUpdates where
  job_title : Option String
  department : Option String
  location : Option String
deriving DecidableEq, Repr

/-- Python truthiness of the `profile_updates` dict: non-empty. -/
def ProfileUpdates.nonempty (p : ProfileUpdates) : Bool :=
  p.job_title.isSome || p.department.isSome || p.location.isSome

/-- One update produced by `prepare_update_plan` (the spec's
UpdateDirective). -/
structure UpdateDirective where
  account_id : Option String
  email : Option String
  jira_name : Option String
  m365_name : Option String
  name_update : Option String
  profile_updates : ProfileUpdates
  jira_current : ProfileUpdates
  m365_source : ProfileUpdates
deriving DecidableEq, Repr

/-- The body of the `prepare_update_plan` loop for one report entry:
`none` when the entry is skipped (`continue` on a falsy `account_id`, or
nothing to update).  A display-name update is proposed when the
display-name verdict's `differs` is truthy and the M365 name is truthy; a
profile field is filled when the phrase `'Missing in Jira'` occurs in that
field's verdict message and the M365 value is truthy. -/
def plan_entry (user_diff : DiffEntry) : Option UpdateDirective :=
  let jira_data := user_diff.jira_data
  let m365_data := user_diff.m365_data
  let differences := user_diff.differences
  if truthy jira_data.account_id then
    let name_update : Option String :=
      if getDiffers differences.display_name && truthy m365_data.display_name then
        m365_data.display_name
      else none
    let upd_job_title : Option String :=
      if strContains (getMessage differences.job_title) "Missing in Jira"
          && truthy m365_data.job_title then
        m365_data.job_title
      else none
    let upd_department : Option String :=
      if strContains (getMessage differences.department) "Missing in Jira"
          && truthy m365_data.department then
        m365_data.department
      else none
    let upd_location : Option String :=
      if strContains (getMessage differences.location) "Missing in Jira"
          && truthy m365_data.office_location then
        m365_data.office_location
      else none
    let has_updates := name_update.isSome || upd_job_title.isSome
      || upd_department.isSome || upd_location.isSome
    if has_updates then
      some
        { account_id := jira_data.account_id
          email := user_diff.email
          jira_name := jira_data.display_name
          m365_name := m365_data.display_name
          name_update := name_update
          profile_updates := ⟨upd_job_title, upd_department, upd_location⟩
          jira_current := ⟨jira_data.job_title, jira_data.department, jira_data.location⟩
          m365_source := ⟨m365_data.job_title, m365_data.department, m365_data.office_location⟩ }
    else none
  else none

/-- `prepare_update_plan` from `update_jira_profiles.py`: walk
`report.get('users_with_differences', [])` and collect the planned
updates. -/
def prepare_update_plan (report : Report) : List UpdateDirective :=
  (report.users_with_differences.getD []).filterMap plan_entry

/-! ### The update executor (`execute_updates`) -/

/-- The two corrective HTTP PATCH operations the executor can issue:
`update_user_profile` (payload = the `profile_updates` whose non-`None`
fields go into `extended_profile`) and `update_user_display_name`. -/
inductive NetOp where
  | profilePatch (account_id : Option String) (payload : ProfileUpdates)
  | namePatch (account_id : Option String) (display_name : String)
deriving DecidableEq, Repr

/-- The `stats` dict returned by `execute_updates`. -/
structure ExecStats where
  total : Nat
  success : Nat
  failed : Nat
  skipped : Nat
  profile_updated : Nat
  name_updated : Nat
  name_failed : Nat
deriving DecidableEq, Repr

/-- The body of the `execute_updates` loop for one update.  The state is
the running stats together with the trace of network operations issued so
far; `ok` is the network's answer to each operation (both helpers
translate any HTTP failure or exception into `False`, never raising).  The
`time.sleep(0.5)` between directives is rate-limit throttling with no
state effect and is not modelled. -/
def applyOne (dry_run : Bool) (ok : NetOp → Bool)
    (acc : ExecStats × List NetOp) (update : UpdateDirective) :
    ExecStats × List NetOp :=
  let stats := acc.1
  let ops := acc.2
  if dry_run then
    let stats := { stats with success := stats.success + 1 }
    let stats :=
      if update.profile_updates.nonempty then
        { stats with profile_updated := stats.profile_updated + 1 }
      else stats
    let stats :=
      if truthy update.name_update then
        { stats with name_updated := stats.name_updated + 1 }
      else stats
    (stats, ops)
  else
    let step1 : ExecStats × List NetOp × Bool :=
      if update.profile_updates.nonempty then
        let op := NetOp.profilePatch update.account_id update.profile_updates
        if ok op then
          ({ stats with profile_updated := stats.profile_updated + 1 }, ops ++ [op], true)
        else
          ({ stats with failed := stats.failed + 1 }, ops ++ [op], false)
      else (stats, ops, false)
    let stats := step1.1
    let ops := step1.2.1
    let succ := step1.2.2
    let step2 : ExecStats × List NetOp × Bool :=
      if truthy update.name_update then
        let op := NetOp.namePatch update.account_id (update.name_update.getD "")
        if ok op then
          ({ stats with name_updated := stats.name_updated + 1 }, ops ++ [op], true)
        else
          ({ stats with name_failed := stats.name_failed + 1 }, ops ++ [op], succ)
      else (stats, ops, succ)
    let stats := step2.1
    let ops := step2.2.1
    let succ := step2.2.2
    let stats := if succ then { stats with success := stats.success + 1 } else stats
    (stats, ops)

/-- `execute_updates` from `update_jira_profiles.py`: initialise the stats
with `total = len(updates)` and run the loop over the updates; the unused
`api_key` only feeds the HTTP requests, which are abstracted by `ok`. -/
def execute_updates (updates : List UpdateDirective) (api_key : String)
    (dry_run : Bool) (ok : NetOp → Bool) : ExecStats × List NetOp :=
  let _ := api_key
  updates.foldl (applyOne dry_run ok)
    ({ total := updates.length, success := 0, failed := 0, skipped := 0,
       profile_updated := 0, name_updated := 0, name_failed := 0 }, [])

/-! ### Concrete inputs used by the claim theorems and witnesses -/

/-- The serialized `FieldDiff` of a `compare_field` outcome, as
`save_detailed_report` writes it into the report. -/
def fdOf (j m : Option String) : FieldDiff :=
  ⟨(compare_field j m).1, (compare_field j m).2⟩

/-- Jira record of the C1 failing input: job title present. -/
def c1jira : RawUser :=
  ⟨some "u@x.com", some "Uma", some "atlassian", some "acc-1",
   some "Engineer", none, none, none⟩

/-- M365 record of the C1 failing input: a job title whose text contains
the phrase `Missing in Jira`. -/
def c1m365 : RawUser :=
  ⟨some "u@x.com", some "Uma", none, none,
   some "Missing in Jira placeholder", none, none, none⟩

/-- The C1 report entry, with every verdict exactly as the comparison
pipeline would serialize it. -/
def c1entry : DiffEntry :=
  { email := some "u@x.com"
    jira_name := some "Uma"
    m365_name := some "Uma"
    differences :=
      { display_name := some (fdOf (some "Uma") (some "Uma"))
        job_title := some (fdOf (some "Engineer") (some "Missing in Jira placeholder"))
        department := some (fdOf none none)
        location := some (fdOf none none) }
    jira_data := c1jira
    m365_data := c1m365 }

/-- The single-entry report around `c1entry`. -/
def c1report : Report := ⟨none, some "full_profiles", some [c1entry]⟩

/-- Oracle answering success to profile patches and failure to name
patches, for the C3 witness. -/
def c3okA : NetOp → Bool
  | NetOp.profilePatch _ _ => true
  | NetOp.namePatch _ _ => false

/-- Oracle answering failure to every operation, for the C3 witness. -/
def c3okB : NetOp → Bool := fun _ => false

/-- A directive with both a profile update and a name update, for the C3
witness. -/
def c3u : UpdateDirective :=
  { account_id := some "acc-9"
    email := some "w@x.com"
    jira_name := some "Old Name"
    m365_name := some "New Name"
    name_update := some "New Name"
    profile_updates := ⟨some "Engineer", none, none⟩
    jira_current := ⟨none, none, none⟩
    m365_source := ⟨some "Engineer", none, none⟩ }

/-- All-zero stats with `total = 1`, for the C3 witness. -/
def c3s0 : ExecStats := ⟨1, 0, 0, 0, 0, 0, 0⟩

/-- The C5 counterexample entry: display-name verdict differs (missing in
M365) while the M365 display name is absent. -/
def c5entry : DiffEntry :=
  { email := some "v@x.com"
    jira_name := some "Bob"
    m365_name := none
    differences :=
      { display_name := some (fdOf (some "Bob") none)
        job_title := some (fdOf none none)
        department := some (fdOf none none)
        location := some (fdOf none none) }
    jira_data := ⟨some "v@x.com", some "Bob", some "atlassian", some "acc-2",
      none, none, none, none⟩
    m365_data := ⟨some "v@x.com", none, none, none, none, none, none, none⟩ }

/-- The single-entry report around `c5entry`. -/
def c5report : Report := ⟨none, some "basic", some [c5entry]⟩

/-- An entry with a Mismatch display-name verdict and a present M365 name,
for the C5 witness. -/
def c5wentry : DiffEntry :=
  { email := some "r@x.com"
    jira_name := some "Bob"
    m365_name := some "Roberta"
    differences :=
      { display_name := some (fdOf (some "Bob") (some "Roberta"))
        job_title := none
        department := none
        location := none }
    jira_data := ⟨some "r@x.com", some "Bob", some "atlassian", some "acc-3",
      none, none, none, none⟩
    m365_data := ⟨some "r@x.com", some "Roberta", none, none, none, none,
      none, none⟩ }

/-- The single-entry report around `c5wentry`, for the C5 witness. -/
def c5wreport : Report := ⟨none, some "basic", some [c5wentry]⟩

/-- First record with the duplicate key, for the C8 witness. -/
def c8u1 : RawUser :=
  ⟨some "A@x.com", some "First", some "atlassian", some "id-a", none, none, none, none⟩

/-- Second record with the duplicate key (after normalization), for the C8
witness. -/
def c8u2 : RawUser :=
  ⟨some "a@x.com ", some "Second", some "atlassian", some "id-b", none, none, none, none⟩

/-- The empty-keyed primary record of the spec's Scenario 2. -/
def c9ghost : RawUser := ⟨some "", some "Ghost", none, none, none, none, none, none⟩

/-- The secondary record of the spec's Scenario 2. -/
def c9bea : RawUser := ⟨some "b@x.com", some "Bea", none, none, none, none, none, none⟩

/-- An ineligible (`account_type = "app"`) primary record, for C10. -/
def c10inel : RawUser :=
  ⟨some "a@x.com", some "Sam", some "app", some "id0", none, none, none, none⟩

/-- An eligible primary record with the same identity key as `c10inel`,
for C10. -/
def c10elig : RawUser :=
  ⟨some "a@x.com", some "Sam", some "atlassian", some "id1", none, none, none, none⟩

/-- A secondary record with the same identity key, for C10. -/
def c10m365 : RawUser :=
  ⟨some "a@x.com", some "Sam", none, none, none, none, none, none⟩

/-! ### Association-list facts about the Python dict model -/

/-- Everything in `dinsert m k v` is either an entry of `m` or `(k, v)`. -/
theorem mem_dinsert {β : Type} {m : PyDict β} {k : String} {v : β}
    {q : String × β} (hq : q ∈ dinsert m k v) : q ∈ m ∨ q = (k, v) := by
  unfold dinsert at hq
  split at hq
  · obtain ⟨p, hp, hfp⟩ := List.mem_map.mp hq
    by_cases h : p.1 = k
    · right; rw [← hfp]; simp [h]
    · left; rw [← hfp]; simp [h]; exact hp
  · rcases List.mem_append.mp hq with h | h
    · left; exact h
    · right; simpa using h

/-- Replacing the value at key `k` does not change what `find?` returns for
a different key. -/
theorem find?_map_replace {β : Type} {k k' : String} (v : β) (h : k' ≠ k) :
    ∀ l : PyDict β,
      ((l.map fun q => if q.1 = k then (k, v) else q).find? fun p => p.1 == k') =
        l.find? fun p => p.1 == k'
  | [] => rfl
  | q :: rest => by
    by_cases hq : q.1 = k
    · have h1 : ((k, v).1 == k') = false := by simp [Ne.symm h]
      have h2 : (q.1 == k') = false := by simp [hq, Ne.symm h]
      simp only [List.map_cons, if_pos hq, List.find?_cons, h1, h2]
      exact find?_map_replace v h rest
    · simp only [List.map_cons, if_neg hq, List.find?_cons]
      cases q.1 == k' with
      | true => rfl
      | false => exact find?_map_replace v h rest

/-- Looking up in `dinsert m k v`: the freshly written value at `k`, the old
dict elsewhere. -/
theorem dlookup_dinsert {β : Type} (k k' : String) (v : β) :
    ∀ m : PyDict β,
      dlookup (dinsert m k v) k' = if k' = k then some v else dlookup m k'
  | [] => by
    by_cases h : k' = k
    · subst h; simp [dinsert, dlookup, List.find?]
    · have hb : (k == k') = false := by simp [Ne.symm h]
      simp [dinsert, dlookup, List.find?, hb, h]
  | p :: rest => by
    by_cases hpk : p.1 = k
    · have hins : dinsert (p :: rest) k v =
          (k, v) :: rest.map (fun q => if q.1 = k then (k, v) else q) := by
        unfold dinsert
        simp [List.any_cons, hpk]
      rw [hins]
      by_cases h : k' = k
      · simp [dlookup, List.find?, h]
      · have h1 : (k == k') = false := by simp [Ne.symm h]
        have h2 : (p.1 == k') = false := by simp [hpk, Ne.symm h]
        simp only [dlookup, List.find?_cons, h1, h2, if_neg h]
        rw [find?_map_replace v h rest]
    · have hins : dinsert (p :: rest) k v = p :: dinsert rest k v := by
        unfold dinsert
        have hpkb : (p.1 == k) = false := by simp [hpk]
        simp only [List.any_cons, hpkb, Bool.false_or]
        by_cases hr : rest.any (fun q => q.1 == k)
        · simp [hr, hpk]
        · simp [hr]
      rw [hins]
      cases hhead : p.1 == k' with
      | true =>
        have : k' ≠ k := fun hc => hpk ((beq_iff_eq.mp hhead).trans hc)
        simp [dlookup, List.find?_cons, hhead, this]
      | false =>
        simp only [dlookup, List.find?_cons, hhead]
        have := dlookup_dinsert k k' v rest
        simpa [dlookup] using this

/-- `dinsert` preserves distinctness of keys. -/
theorem dkeys_dinsert_nodup {β : Type} {m : PyDict β} (k : String) (v : β)
    (h : (dkeys m).Nodup) : (dkeys (dinsert m k v)).Nodup := by
  unfold dinsert
  split
  · have : dkeys (m.map fun p => if p.1 = k then (k, v) else p) = dkeys m := by
      unfold dkeys
      rw [List.map_map]
      refine List.map_congr_left ?_
      intro p _
      by_cases hp : p.1 = k <;> simp [hp]
    rw [this]; exact h
  · rename_i hany
    have hk : k ∉ dkeys m := by
      intro hmem
      obtain ⟨p, hp, hpk⟩ := List.mem_map.mp hmem
      have : m.any (fun p => p.1 == k) = true :=
        List.any_eq_true.mpr ⟨p, hp, by simp [hpk]⟩
      exact hany this
    unfold dkeys
    rw [List.map_append]
    simp only [List.map_cons, List.map_nil]
    rw [List.nodup_append]
    exact ⟨h, List.nodup_singleton k, by
      intro a ha hb
      simp at hb
      subst hb
      exact hk ha⟩

/-- In a dict with distinct keys, every entry is what lookup at its key
returns. -/
theorem dlookup_of_mem_nodup {β : Type} :
    ∀ {m : PyDict β}, (dkeys m).Nodup → ∀ {p : String × β}, p ∈ m →
      dlookup m p.1 = some p.2
  | [], _, _, hp => absurd hp (List.not_mem_nil _)
  | q :: rest, hnd, p, hp => by
    have h0 : dkeys (q :: rest) = q.1 :: dkeys rest := rfl
    rw [h0, List.nodup_cons] at hnd
    rcases List.mem_cons.mp hp with h | h
    · subst h
      simp [dlookup, List.find?_cons]
    · have hq : (q.1 == p.1) = false := by
        simp only [beq_eq_false_iff_ne, ne_eq]
        intro hc
        apply hnd.1
        rw [hc]
        exact List.mem_map.mpr ⟨p, h, rfl⟩
      simp only [dlookup, List.find?_cons, hq]
      exact dlookup_of_mem_nodup hnd.2 h

/-- `dmem` unfolded to an existence statement. -/
theorem dmem_iff {β : Type} (m : PyDict β) (k : String) :
    dmem m k = true ↔ ∃ p ∈ m, p.1 = k := by
  simp [dmem, List.any_eq_true]

/-! ### Facts about `create_email_mapping` -/

/-- Invariant of the email-mapping fold: every entry is keyed by the
normalized email of its record, and that key is non-empty. -/
theorem mapping_foldl_inv (email_field : RawUser → Option String) :
    ∀ (users : List RawUser) (acc : PyDict RawUser),
      (∀ q ∈ acc, q.1 = normalize_email (email_field q.2) ∧ q.1 ≠ "") →
      ∀ p ∈ users.foldl (add_user email_field) acc,
        p.1 = normalize_email (email_field p.2) ∧ p.1 ≠ ""
  | [], acc, hacc => hacc
  | u :: rest, acc, hacc => by
    intro p hp
    refine mapping_foldl_inv email_field rest (add_user email_field acc u) ?_ p hp
    intro q hq
    unfold add_user at hq
    split at hq
    · exact hacc q hq
    · rename_i hne
      rcases mem_dinsert hq with h | h
      · exact hacc q h
      · subst h
        exact ⟨rfl, hne⟩

/-- Every entry of `create_email_mapping` is keyed by the normalized email
of its record, and that key is non-empty. -/
theorem create_email_mapping_mem (users : List RawUser)
    (email_field : RawUser → Option String) {p : String × RawUser}
    (hp : p ∈ create_email_mapping users email_field) :
    p.1 = normalize_email (email_field p.2) ∧ p.1 ≠ "" :=
  mapping_foldl_inv email_field users [] (by intro q hq; cases hq) p hp

/-- The email-mapping fold keeps keys distinct. -/
theorem mapping_foldl_nodup (email_field : RawUser → Option String) :
    ∀ (users : List RawUser) (acc : PyDict RawUser),
      (dkeys acc).Nodup →
      (dkeys (users.foldl (add_user email_field) acc)).Nodup
  | [], _, hacc => hacc
  | u :: rest, acc, hacc => by
    refine mapping_foldl_nodup email_field rest (add_user email_field acc u) ?_
    unfold add_user
    split
    · exact hacc
    · exact dkeys_dinsert_nodup _ _ hacc

/-- The keys of `create_email_mapping` are distinct. -/
theorem create_email_mapping_nodup (users : List RawUser)
    (email_field : RawUser → Option String) :
    (dkeys (create_email_mapping users email_field)).Nodup :=
  mapping_foldl_nodup email_field users [] List.nodup_nil

/-- `getLast?` of a cons in terms of `getLast?` of the tail. -/
theorem getLast?_cons_eq {α : Type} (a : α) (l : List α) :
    (a :: l).getLast? = some (l.getLast?.getD a) := by
  induction l generalizing a with
  | nil => rfl
  | cons b t ih =>
    rw [List.getLast?_cons_cons, ih b]
    simp

/-- Lookup in the email-mapping fold: the last input record normalizing to
the (non-empty) key wins; keys untouched by the input fall through to the
accumulator. -/
theorem mapping_foldl_lookup (email_field : RawUser → Option String)
    (k : String) (hk : k ≠ "") :
    ∀ (users : List RawUser) (acc : PyDict RawUser),
      dlookup (users.foldl (add_user email_field) acc) k =
        ((users.filter fun u => normalize_email (email_field u) == k).getLast?).elim
          (dlookup acc k) some
  | [], acc => by simp
  | u :: rest, acc => by
    rw [List.foldl_cons, List.filter_cons]
    by_cases hu : normalize_email (email_field u) = k
    · have hb : (normalize_email (email_field u) == k) = true := by simp [hu]
      rw [hb]
      simp only [if_true]
      have hstep : add_user email_field acc u = dinsert acc k u := by
        unfold add_user
        rw [hu, if_neg hk]
      rw [hstep, mapping_foldl_lookup email_field k hk rest (dinsert acc k u)]
      rw [getLast?_cons_eq]
      cases hrest : (rest.filter fun u => normalize_email (email_field u) == k).getLast? with
      | none =>
        simp only [Option.elim, Option.getD]
        rw [dlookup_dinsert, if_pos rfl]
      | some w => simp
    · have hb : (normalize_email (email_field u) == k) = false := by simp [hu]
      rw [hb]
      simp only [Bool.false_eq_true, if_false]
      rw [mapping_foldl_lookup email_field k hk rest (add_user email_field acc u)]
      have hstep : dlookup (add_user email_field acc u) k = dlookup acc k := by
        unfold add_user
        split
        · rfl
        · rw [dlookup_dinsert, if_neg (fun hc => hu hc.symm)]
      rw [hstep]

/-! ### Facts about the `compare_users` loop -/

/-- Every record in the `only_jira` component of the loop result is the
record of some input dict entry. -/
theorem match_loop_only_jira (m365_map : PyDict RawUser) (hp : Bool) :
    ∀ (l : PyDict RawUser) (x : RawUser),
      x ∈ (match_loop m365_map hp l).2.1 → ∃ p ∈ l, x = p.2
  | [], x, hx => absurd hx (List.not_mem_nil x)
  | p :: rest, x, hx => by
    unfold match_loop at hx
    cases hl : dlookup m365_map p.1 with
    | some m365_user =>
      rw [hl] at hx
      simp only at hx
      obtain ⟨q, hq, hxq⟩ := match_loop_only_jira m365_map hp rest x hx
      exact ⟨q, List.mem_cons_of_mem p hq, hxq⟩
    | none =>
      rw [hl] at hx
      simp only [List.mem_cons] at hx
      rcases hx with h | h
      · exact ⟨p, List.mem_cons_self p rest, h⟩
      · obtain ⟨q, hq, hxq⟩ := match_loop_only_jira m365_map hp rest x h
        exact ⟨q, List.mem_cons_of_mem p hq, hxq⟩

/-- Every comparison in the `matched` component of the loop result has as
its `jira` side the record of some input dict entry. -/
theorem match_loop_matched (m365_map : PyDict RawUser) (hp : Bool) :
    ∀ (l : PyDict RawUser) (c : UserComparison),
      c ∈ (match_loop m365_map hp l).1 → ∃ p ∈ l, c.jira = p.2
  | [], c, hc => absurd hc (List.not_mem_nil c)
  | p :: rest, c, hc => by
    unfold match_loop at hc
    cases hl : dlookup m365_map p.1 with
    | some m365_user =>
      rw [hl] at hc
      simp only [List.mem_cons] at hc
      rcases hc with h | h
      · subst h
        exact ⟨p, List.mem_cons_self p rest, rfl⟩
      · obtain ⟨q, hq, hcq⟩ := match_loop_matched m365_map hp rest c h
        exact ⟨q, List.mem_cons_of_mem p hq, hcq⟩
    | none =>
      rw [hl] at hc
      simp only at hc
      obtain ⟨q, hq, hcq⟩ := match_loop_matched m365_map hp rest c hc
      exact ⟨q, List.mem_cons_of_mem p hq, hcq⟩

/-- The `only_jira` output of `compare_users`, unfolded. -/
theorem compare_users_only_jira (jira_users m365_users : List RawUser)
    (hp : Bool) :
    (compare_users jira_users m365_users hp).only_jira =
      (match_loop (create_email_mapping m365_users (fun u => u.email)) hp
        ((create_email_mapping jira_users (fun u => u.email)).filter
          (fun p => p.2.account_type == some "atlassian"))).2.1 := rfl

/-- The `matched` output of `compare_users`, unfolded. -/
theorem compare_users_matched (jira_users m365_users : List RawUser)
    (hp : Bool) :
    (compare_users jira_users m365_users hp).matched =
      (match_loop (create_email_mapping m365_users (fun u => u.email)) hp
        ((create_email_mapping jira_users (fun u => u.email)).filter
          (fun p => p.2.account_type == some "atlassian"))).1 := rfl

/-- The `only_m365` output of `compare_users`, unfolded. -/
theorem compare_users_only_m365 (jira_users m365_users : List RawUser)
    (hp : Bool) :
    (compare_users jira_users m365_users hp).only_m365 =
      ((create_email_mapping m365_users (fun u => u.email)).filter
        (fun p => !(dmem ((create_email_mapping jira_users (fun u => u.email)).filter
          (fun p => p.2.account_type == some "atlassian")) p.1))).map (fun p => p.2) := rfl

/-! ### Facts about the update executor -/

/-- In dry-run mode one loop step issues no operation, unconditionally
counts the directive as a success, leaves `total` alone, and never consults
the network oracle. -/
theorem applyOne_dry (ok ok₂ : NetOp → Bool) (s : ExecStats)
    (ops : List NetOp) (u : UpdateDirective) :
    (applyOne true ok (s, ops) u).2 = ops ∧
    (applyOne true ok (s, ops) u).1.success = s.success + 1 ∧
    (applyOne true ok (s, ops) u).1.total = s.total ∧
    applyOne true ok (s, ops) u = applyOne true ok₂ (s, ops) u := by
  refine ⟨?_, ?_, ?_, rfl⟩ <;>
    simp [applyOne] <;>
    split <;>
    split <;>
    simp

/-- The dry-run fold preserves the trace and `total` and adds the list
length to `success`. -/
theorem dry_foldl (ok : NetOp → Bool) :
    ∀ (l : List UpdateDirective) (s : ExecStats) (ops : List NetOp),
      (l.foldl (applyOne true ok) (s, ops)).2 = ops ∧
      (l.foldl (applyOne true ok) (s, ops)).1.success = s.success + l.length ∧
      (l.foldl (applyOne true ok) (s, ops)).1.total = s.total
  | [], s, ops => by simp
  | u :: rest, s, ops => by
    obtain ⟨h1, h2, h3, _⟩ := applyOne_dry ok ok s ops u
    rcases hpair : applyOne true ok (s, ops) u with ⟨s1, ops1⟩
    rw [hpair] at h1 h2 h3
    have h1' : ops1 = ops := h1
    have h2' : s1.success = s.success + 1 := h2
    have h3' : s1.total = s.total := h3
    rw [List.foldl_cons, hpair]
    obtain ⟨g1, g2, g3⟩ := dry_foldl ok rest s1 ops1
    refine ⟨by rw [g1]; exact h1', ?_, by rw [g3]; exact h3'⟩
    rw [g2, h2', List.length_cons]
    omega

/-! ### Claim theorems -/

/--
C2.  `compare_field` follows the spec's five-rule decision table in order:
both sides empty after trim gives "both empty" with `differs = false`
(BothEmpty); primary empty with secondary non-empty gives `differs = true`
(MissingInPrimary); secondary empty with primary non-empty gives
`differs = true` (MissingInSecondary); case-insensitive trimmed equality
gives `differs = false` (MatchedEquivalent); otherwise `differs = true`
(Mismatch).
-/
theorem c2_decision_table (p s : Option String) :
    (pyStrip p = "" → pyStrip s = "" →
      compare_field p s = (false, "✓ Both empty") ∧
      compare_field_class p s = Classification.BothEmpty) ∧
    (pyStrip p = "" → pyStrip s ≠ "" →
      (compare_field p s).1 = true ∧
      compare_field_class p s = Classification.MissingInPrimary) ∧
    (pyStrip p ≠ "" → pyStrip s = "" →
      (compare_field p s).1 = true ∧
      compare_field_class p s = Classification.MissingInSecondary) ∧
    (pyStrip p ≠ "" → pyStrip s ≠ "" →
      lowerStr (pyStrip p) = lowerStr (pyStrip s) →
      (compare_field p s).1 = false ∧
      compare_field_class p s = Classification.MatchedEquivalent) ∧
    (pyStrip p ≠ "" → pyStrip s ≠ "" →
      lowerStr (pyStrip p) ≠ lowerStr (pyStrip s) →
      (compare_field p s).1 = true ∧
      compare_field_class p s = Classification.Mismatch) := by
  refine ⟨fun h1 h2 => ?_, fun h1 h2 => ?_, fun h1 h2 => ?_,
    fun h1 h2 h3 => ?_, fun h1 h2 h3 => ?_⟩ <;>
    simp [compare_field, compare_field_class, *]

/-- C2 witness: the table evaluated at concrete inputs, one per rule. -/
theorem c2_decision_table_witness :
    (compare_field (some "  ") none = (false, "✓ Both empty") ∧
      compare_field_class (some "  ") none = Classification.BothEmpty) ∧
    ((compare_field none (some "Engineer")).1 = true ∧
      compare_field_class none (some "Engineer") = Classification.MissingInPrimary) ∧
    ((compare_field (some "Engineer") (some " ")).1 = true ∧
      compare_field_class (some "Engineer") (some " ") = Classification.MissingInSecondary) ∧
    ((compare_field (some " A ") (some "a")).1 = false ∧
      compare_field_class (some " A ") (some "a") = Classification.MatchedEquivalent) ∧
    ((compare_field (some "A") (some "B")).1 = true ∧
      compare_field_class (some "A") (some "B") = Classification.Mismatch) :=
  ⟨(c2_decision_table (some "  ") none).1 (by decide) (by decide),
   (c2_decision_table none (some "Engineer")).2.1 (by decide) (by decide),
   (c2_decision_table (some "Engineer") (some " ")).2.2.1 (by decide) (by decide),
   (c2_decision_table (some " A ") (some "a")).2.2.2.1 (by decide) (by decide) (by decide),
   (c2_decision_table (some "A") (some "B")).2.2.2.2 (by decide) (by decide) (by decide)⟩

/--
C7.  For every field verdict the pipeline produces: a `compare_field`
verdict has `differs = true` exactly when its classification is
MissingInPrimary, MissingInSecondary or Mismatch; and the three
informational (InfoOnly) profile verdicts built in basic mode always have
`differs = false` and carry the M365 (secondary-source) value in their
display message.
-/
theorem c7_differs_iff_classification :
    (∀ (j m : Option String),
      (compare_field j m).1 = true ↔
        (compare_field_class j m = Classification.MissingInPrimary ∨
         compare_field_class j m = Classification.MissingInSecondary ∨
         compare_field_class j m = Classification.Mismatch)) ∧
    (∀ (jira_user m365_user : RawUser),
      (build_differences false jira_user m365_user).1.job_title =
        (false, "ℹ️  M365: \x27" ++ pyOr m365_user.job_title "None" ++ "\x27") ∧
      (build_differences false jira_user m365_user).1.department =
        (false, "ℹ️  M365: \x27" ++ pyOr m365_user.department "None" ++ "\x27") ∧
      (build_differences false jira_user m365_user).1.location =
        (false, "ℹ️  M365: \x27" ++ pyOr m365_user.office_location "None" ++ "\x27")) := by
  constructor
  · intro j m
    simp only [compare_field, compare_field_class]
    split_ifs <;> simp
  · intro ju mu
    simp [build_differences]

/--
C6.  In simulate (dry-run) mode the executor issues no network operation
(the trace is empty and the outcome is independent of the network oracle)
and counts every directive as applied successfully: `total` and `success`
both equal the number of directives; in particular three directives give
`total = 3` and `success = 3`.
-/
theorem c6_simulate_mode (api_key : String) (ok : NetOp → Bool)
    (updates : List UpdateDirective) :
    (execute_updates updates api_key true ok).2 = [] ∧
    (execute_updates updates api_key true ok).1.total = updates.length ∧
    (execute_updates updates api_key true ok).1.success = updates.length ∧
    (∀ ok₂, execute_updates updates api_key true ok =
      execute_updates updates api_key true ok₂) ∧
    (∀ u₁ u₂ u₃ : UpdateDirective,
      (execute_updates [u₁, u₂, u₃] api_key true ok).1.total = 3 ∧
      (execute_updates [u₁, u₂, u₃] api_key true ok).1.success = 3) := by
  have main : ∀ l : List UpdateDirective,
      (execute_updates l api_key true ok).2 = [] ∧
      (execute_updates l api_key true ok).1.total = l.length ∧
      (execute_updates l api_key true ok).1.success = l.length := by
    intro l
    obtain ⟨h1, h2, h3⟩ := dry_foldl ok l
      { total := l.length, success := 0, failed := 0, skipped := 0,
        profile_updated := 0, name_updated := 0, name_failed := 0 } []
    refine ⟨h1, h3, ?_⟩
    have h2' : (execute_updates l api_key true ok).1.success = 0 + l.length := h2
    rw [h2']
    omega
  obtain ⟨h1, h2, h3⟩ := main updates
  refine ⟨h1, h2, h3, ?_, ?_⟩
  · intro ok₂
    have : applyOne true ok = applyOne true ok₂ :=
      funext fun acc => funext fun u => rfl
    unfold execute_updates
    rw [this]
  · intro u₁ u₂ u₃
    obtain ⟨_, g2, g3⟩ := main [u₁, u₂, u₃]
    exact ⟨g2, g3⟩

/--
C3.  One commit-mode executor step on a directive that has both profile
updates and a name update: when the profile PATCH succeeds and the name
PATCH fails, `profile_updated` and `name_failed` are each incremented and
the directive is still counted in `success`; and even when the profile
PATCH fails, the name PATCH is still attempted (it appears in the trace)
and the name failure is only tallied, never fatal (the step always returns
stats).
-/
theorem c3_partial_success (ok : NetOp → Bool) (s : ExecStats)
    (ops : List NetOp) (u : UpdateDirective) (name : String) :
    u.profile_updates.nonempty = true →
    u.name_update = some name →
    truthy u.name_update = true →
    (ok (NetOp.profilePatch u.account_id u.profile_updates) = true →
      ok (NetOp.namePatch u.account_id name) = false →
      applyOne false ok (s, ops) u =
        ({ s with profile_updated := s.profile_updated + 1,
                  name_failed := s.name_failed + 1,
                  success := s.success + 1 },
         ops ++ [NetOp.profilePatch u.account_id u.profile_updates,
                 NetOp.namePatch u.account_id name])) ∧
    (ok (NetOp.profilePatch u.account_id u.profile_updates) = false →
      ok (NetOp.namePatch u.account_id name) = false →
      applyOne false ok (s, ops) u =
        ({ s with failed := s.failed + 1, name_failed := s.name_failed + 1 },
         ops ++ [NetOp.profilePatch u.account_id u.profile_updates,
                 NetOp.namePatch u.account_id name])) := by
  intro hpn hname htr
  have hgetD : u.name_update.getD "" = name := by rw [hname]; rfl
  constructor
  · intro hok1 hok2
    simp [applyOne, hpn, htr, hgetD, hok1, hok2]
  · intro hok1 hok2
    simp [applyOne, hpn, htr, hgetD, hok1, hok2]

/-- C3 witness: both commit-mode scenarios at a concrete directive. -/
theorem c3_partial_success_witness :
    applyOne false c3okA (c3s0, []) c3u =
      (⟨1, 1, 0, 0, 1, 0, 1⟩,
       [NetOp.profilePatch (some "acc-9") ⟨some "Engineer", none, none⟩,
        NetOp.namePatch (some "acc-9") "New Name"]) ∧
    applyOne false c3okB (c3s0, []) c3u =
      (⟨1, 0, 1, 0, 0, 0, 1⟩,
       [NetOp.profilePatch (some "acc-9") ⟨some "Engineer", none, none⟩,
        NetOp.namePatch (some "acc-9") "New Name"]) :=
  ⟨(c3_partial_success c3okA c3s0 [] c3u "New Name"
      (by decide) (by decide) (by decide)).1 (by decide) (by decide),
   (c3_partial_success c3okB c3s0 [] c3u "New Name"
      (by decide) (by decide) (by decide)).2 (by decide) (by decide)⟩

/--
C1 (code bug).  The planner keys the fill-missing policy on the substring
`'Missing in Jira'` of the human-readable verdict message, not on the
structured classification.  At this report entry the job-title verdict is
exactly the pipeline's `compare_field` output for Jira `"Engineer"` versus
M365 `"Missing in Jira placeholder"`, whose classification is Mismatch —
yet the update plan contains the corrective job-title value, so a Mismatch
is auto-corrected, contrary to the fill-missing-only policy.
-/
theorem c1_mismatch_autocorrected :
    compare_field_class (some "Engineer") (some "Missing in Jira placeholder") =
      Classification.Mismatch ∧
    c1entry.differences.job_title =
      some ⟨(compare_field (some "Engineer") (some "Missing in Jira placeholder")).1,
            (compare_field (some "Engineer") (some "Missing in Jira placeholder")).2⟩ ∧
    (prepare_update_plan c1report).map (fun u => u.profile_updates.job_title) =
      [some "Missing in Jira placeholder"] :=
  ⟨by decide, by decide, by decide⟩

/--
C4 counterexample.  A report that is valid JSON but lacks the
`users_with_differences` list loads successfully and yields the empty
update plan — planning proceeds instead of failing with a non-zero
outcome, so "lacks required fields" is not fatal as the claim states.
-/
theorem c4_missing_fields_counterexample :
    (⟨none, none, none⟩ : Report).users_with_differences = none ∧
    load_sync_report (LoadInput.parsed ⟨none, none, none⟩) =
      Except.ok ⟨none, none, none⟩ ∧
    prepare_update_plan ⟨none, none, none⟩ = [] :=
  ⟨rfl, rfl, by decide⟩

/--
C4 amended.  A missing report file or invalid JSON is fatal: loading
produces the diagnostic-and-exit path with process outcome 1.  A report
that parses but lacks the `users_with_differences` field is not fatal: it
loads successfully and the planner, which defaults the missing list to
empty, produces the empty update plan.
-/
theorem c4_amended :
    load_sync_report LoadInput.fileNotFound = Except.error 1 ∧
    load_sync_report LoadInput.invalidJson = Except.error 1 ∧
    (∀ r : Report, load_sync_report (LoadInput.parsed r) = Except.ok r) ∧
    (∀ r : Report, r.users_with_differences = none →
      prepare_update_plan r = []) := by
  refine ⟨rfl, rfl, fun r => rfl, fun r h => ?_⟩
  simp [prepare_update_plan, h]

/-- C4 amended witness: the field-lacking report at a concrete input. -/
theorem c4_amended_witness :
    prepare_update_plan ⟨none, none, none⟩ = [] :=
  c4_amended.2.2.2 ⟨none, none, none⟩ rfl

/--
C5 counterexample.  A report entry whose display-name verdict differs
(direction MissingInSecondary: the M365 display name is absent) and whose
account id is present produces no update directive at all — the planner
proposes a display-name correction only when the M365 name is non-empty,
not "regardless of direction".
-/
theorem c5_display_name_counterexample :
    getDiffers c5entry.differences.display_name = true ∧
    truthy c5entry.jira_data.account_id = true ∧
    c5entry ∈ c5report.users_with_differences.getD [] ∧
    prepare_update_plan c5report = [] :=
  ⟨by decide, by decide, by decide, by decide⟩

/--
C5 amended.  For every report entry whose account id is present, whose
display-name verdict has truthy `differs`, and whose secondary (M365)
display name is non-empty, the planner emits a directive for that entry
whose `name_update` is exactly the M365 display name; when the M365
display name is empty or absent no correction is proposed.
-/
theorem c5_amended (report : Report) (e : DiffEntry) :
    e ∈ report.users_with_differences.getD [] →
    truthy e.jira_data.account_id = true →
    getDiffers e.differences.display_name = true →
    truthy e.m365_data.display_name = true →
    ∃ u ∈ prepare_update_plan report,
      u.account_id = e.jira_data.account_id ∧
      u.name_update = e.m365_data.display_name := by
  intro he hacc hdiff hname
  have hsome : e.m365_data.display_name.isSome = true := by
    cases h : e.m365_data.display_name with
    | none => rw [h] at hname; simp [truthy] at hname
    | some s => rfl
  have hpe : ∃ u, plan_entry e = some u ∧
      u.account_id = e.jira_data.account_id ∧
      u.name_update = e.m365_data.display_name := by
    simp only [plan_entry, hacc, hdiff, hname, hsome, Bool.and_self,
      Bool.true_or, if_true, Option.isSome_some]
    exact ⟨_, rfl, rfl, rfl⟩
  obtain ⟨u, hu, h1, h2⟩ := hpe
  exact ⟨u, List.mem_filterMap.mpr ⟨e, he, hu⟩, h1, h2⟩

/-- C5 amended witness: the amended statement at a concrete entry. -/
theorem c5_amended_witness :
    ∃ u ∈ prepare_update_plan c5wreport,
      u.account_id = c5wentry.jira_data.account_id ∧
      u.name_update = c5wentry.m365_data.display_name :=
  c5_amended c5wreport c5wentry (by decide) (by decide) (by decide) (by decide)

/--
C8.  The identity mapping is built with last-write-wins semantics: for
every non-empty key, lookup returns exactly the last input record whose
normalized email equals that key (and none when no record does); duplicate
keys are simply overwritten, never an error — `create_email_mapping` is
total.
-/
theorem c8_last_write_wins (users : List RawUser)
    (email_field : RawUser → Option String) (k : String) :
    k ≠ "" →
    dlookup (create_email_mapping users email_field) k =
      (users.filter fun u => normalize_email (email_field u) == k).getLast? := by
  intro hk
  have h := mapping_foldl_lookup email_field k hk users []
  unfold create_email_mapping
  rw [h]
  cases (users.filter fun u => normalize_email (email_field u) == k).getLast? <;> rfl

/-- C8 witness: with two records normalizing to the same key, lookup holds
the later one. -/
theorem c8_last_write_wins_witness :
    dlookup (create_email_mapping [c8u1, c8u2] (fun u => u.email)) "a@x.com" =
      ([c8u1, c8u2].filter fun u => normalize_email u.email == "a@x.com").getLast? ∧
    dlookup (create_email_mapping [c8u1, c8u2] (fun u => u.email)) "a@x.com" =
      some c8u2 :=
  ⟨c8_last_write_wins [c8u1, c8u2] (fun u => u.email) "a@x.com" (by decide),
   by decide⟩

/--
C9.  A primary record whose email normalizes to the empty identity key is
excluded from matching entirely: it is never the Jira side of a matched
pair and never counted as only-Jira (and the exclusion is just a skipped
insertion, never a failure — `compare_users` is total).  Concretely,
Scenario 2: primary `[{email:"", name:"Ghost"}]` against secondary
`[{email:"b@x.com", name:"Bea"}]` yields no matches, an empty only-primary
set and exactly one only-secondary entry.
-/
theorem c9_empty_key_excluded :
    (∀ (jira_users m365_users : List RawUser) (hp : Bool) (u : RawUser),
      normalize_email u.email = "" → u ∈ jira_users →
      u ∉ (compare_users jira_users m365_users hp).only_jira ∧
      ∀ c ∈ (compare_users jira_users m365_users hp).matched, c.jira ≠ u) ∧
    (∀ hp : Bool,
      (compare_users [c9ghost] [c9bea] hp).matched = [] ∧
      (compare_users [c9ghost] [c9bea] hp).only_jira = [] ∧
      (compare_users [c9ghost] [c9bea] hp).only_m365 = [c9bea]) := by
  constructor
  · intro ju mu hp u hnorm _hmem
    have key : ∀ p : String × RawUser,
        p ∈ (create_email_mapping ju (fun v => v.email)).filter
          (fun p => p.2.account_type == some "atlassian") → p.2 ≠ u := by
      intro p hpf hc
      have hin : p ∈ create_email_mapping ju (fun v => v.email) :=
        (List.mem_filter.mp hpf).1
      obtain ⟨hkey, hne⟩ := create_email_mapping_mem ju _ hin
      apply hne
      rw [hkey, hc, hnorm]
    constructor
    · intro hmem
      rw [compare_users_only_jira] at hmem
      obtain ⟨p, hp1, hp2⟩ := match_loop_only_jira _ hp _ u hmem
      exact key p hp1 hp2.symm
    · intro c hc hcj
      rw [compare_users_matched] at hc
      obtain ⟨p, hp1, hp2⟩ := match_loop_matched _ hp _ c hc
      exact key p hp1 (by rw [← hp2]; exact hcj)
  · intro hp
    cases hp <;> exact ⟨by decide, by decide, by decide⟩

/-- C9 witness: the general exclusion applied to the Scenario-2 ghost
record. -/
theorem c9_empty_key_excluded_witness :
    c9ghost ∉ (compare_users [c9ghost] [c9bea] false).only_jira :=
  (c9_empty_key_excluded.1 [c9ghost] [c9bea] false c9ghost
    (by decide) (by decide)).1

/--
C10 counterexample.  With primary records `[c10inel, c10elig]` — an
ineligible and an eligible one sharing the key `a@x.com` (last write wins)
— the secondary record with that key is matched, not only-secondary, even
though its key equals an ineligible primary record's key; so the claim's
second half fails as stated.
-/
theorem c10_ineligible_counterexample :
    c10inel.account_type ≠ some "atlassian" ∧
    normalize_email c10m365.email = normalize_email c10inel.email ∧
    (compare_users [c10inel, c10elig] [c10m365] true).only_m365 = [] ∧
    (compare_users [c10inel, c10elig] [c10m365] true).matched.map
      (fun c => c.email) = ["a@x.com"] :=
  ⟨by decide, by decide, by decide, by decide⟩

/--
C10 amended.  A primary record failing the eligibility filter is neither
the Jira side of a matched pair nor counted as only-primary; and a
secondary record is classified only-secondary whenever the *last* primary
record bearing its identity key is ineligible (with last-write-wins, a
later eligible duplicate of the key restores matching).
-/
theorem c10_amended :
    (∀ (jira_users m365_users : List RawUser) (hp : Bool) (r : RawUser),
      r.account_type ≠ some "atlassian" →
      r ∉ (compare_users jira_users m365_users hp).only_jira ∧
      ∀ c ∈ (compare_users jira_users m365_users hp).matched, c.jira ≠ r) ∧
    (∀ (jira_users m365_users : List RawUser) (hp : Bool) (k : String)
      (mu w : RawUser),
      (k, mu) ∈ create_email_mapping m365_users (fun u => u.email) →
      (jira_users.filter fun u => normalize_email u.email == k).getLast? = some w →
      w.account_type ≠ some "atlassian" →
      mu ∈ (compare_users jira_users m365_users hp).only_m365) := by
  constructor
  · intro ju mu hp r hinel
    have key : ∀ p : String × RawUser,
        p ∈ (create_email_mapping ju (fun v => v.email)).filter
          (fun p => p.2.account_type == some "atlassian") → p.2 ≠ r := by
      intro p hpf hc
      have helig := (List.mem_filter.mp hpf).2
      apply hinel
      rw [← hc]
      exact beq_iff_eq.mp helig
    constructor
    · intro hmem
      rw [compare_users_only_jira] at hmem
      obtain ⟨p, hp1, hp2⟩ := match_loop_only_jira _ hp _ r hmem
      exact key p hp1 hp2.symm
    · intro c hc hcj
      rw [compare_users_matched] at hc
      obtain ⟨p, hp1, hp2⟩ := match_loop_matched _ hp _ c hc
      exact key p hp1 (by rw [← hp2]; exact hcj)
  · intro ju musers hp k mu w hmem hlast hinel
    have hk : k ≠ "" := (create_email_mapping_mem musers _ hmem).2
    have hlook : dlookup (create_email_mapping ju (fun u => u.email)) k = some w := by
      rw [c8_last_write_wins ju (fun u => u.email) k hk]
      exact hlast
    have hnodup := create_email_mapping_nodup ju (fun u => u.email)
    have hdmem : dmem ((create_email_mapping ju (fun u => u.email)).filter
        (fun p => p.2.account_type == some "atlassian")) k = false := by
      cases hd : dmem ((create_email_mapping ju (fun u => u.email)).filter
          (fun p => p.2.account_type == some "atlassian")) k with
      | false => rfl
      | true =>
        obtain ⟨p, hpf, hpk⟩ := (dmem_iff _ _).mp hd
        have hin : p ∈ create_email_mapping ju (fun u => u.email) :=
          (List.mem_filter.mp hpf).1
        have helig := (List.mem_filter.mp hpf).2
        have hlp := dlookup_of_mem_nodup hnodup hin
        rw [hpk, hlook] at hlp
        have hw : p.2 = w := Option.some.inj hlp.symm
        exact absurd (beq_iff_eq.mp (hw ▸ helig)) hinel
    rw [compare_users_only_m365]
    refine List.mem_map.mpr ⟨(k, mu), List.mem_filter.mpr ⟨hmem, ?_⟩, rfl⟩
    simp [hdmem]

/-- C10 amended witness: with the key's only (hence last) primary record
ineligible, the secondary record is only-secondary. -/
theorem c10_amended_witness :
    c10m365 ∈ (compare_users [c10inel] [c10m365] true).only_m365 :=
  c10_amended.2 [c10inel] [c10m365] true "a@x.com" c10m365 c10inel
    (by decide) (by decide) (by decide)

end JiraSync
